import Mathlib

/-!
Verification of the pyomo repository slice: the identity-keyed `ComponentMap`
container (`pyomo/core/kernel/component_map.py`) and the Benders decomposition
cut-generation engine described by the design specification (the engine module
`pyomo/contrib/benders/benders_cuts.py` is exercised by the test
`pyomo/contrib/benders/tests/par_grothkey.py`; the engine itself is modelled
from the specification where noted).
-/

set_option maxRecDepth 4000

namespace PyomoSpec

/-! ## ComponentMap (from `pyomo/core/kernel/component_map.py`)

A Pyomo modeling component is keyed by its Python `id()` (object identity),
never by structural content.  We model a component as a record carrying its
identity `oid` together with structural content (bounds and current value)
that plays no role in map lookups. -/

/-- A model component: `oid` is the Python `id()` of the object (its identity);
`lb`, `ub`, `value` stand for structural content (bounds / current value) that
two distinct objects may share. -/
structure Component where
  oid : Nat
  lb : Option Int
  ub : Option Int
  value : Option Int
deriving DecidableEq

/-- The underlying Python dict of `ComponentMap`: maps `id(obj) -> (obj, val)`.
Modelled as an association list with insertion-order semantics of a Python
dict (assignment to a present key replaces the entry in place, otherwise
appends). -/
def Dict (V : Type) : Type := List (Nat × Component × V)

/-- Lookup in the underlying dict by key. -/
def dictFind {V : Type} (k : Nat) : Dict V → Option (Component × V)
  | [] => none
  | (k', cv) :: rest => if k' = k then some cv else dictFind k rest

/-- Python dict assignment `d[k] = cv`: replace in place when the key is
present, append otherwise. -/
def dictSet {V : Type} (k : Nat) (cv : Component × V) : Dict V → Dict V
  | [] => [(k, cv)]
  | (k', cv') :: rest =>
      if k' = k then (k, cv) :: rest else (k', cv') :: dictSet k cv rest

/-- Python dict deletion `del d[k]`: remove the entry, `none` (KeyError) when
the key is absent. -/
def dictDel {V : Type} (k : Nat) : Dict V → Option (Dict V)
  | [] => none
  | (k', cv') :: rest =>
      if k' = k then some rest
      else (dictDel k rest).map (fun r => (k', cv') :: r)

/-- `ComponentMap`: a dict replacement keying entries by the Python `id()` of
the component (`self._dict` maps `id(obj) -> (obj, val)`). -/
structure ComponentMap (V : Type) where
  dict : Dict V

namespace ComponentMap

/-- `__getitem__`: `self._dict[id(component)][1]`; `none` models the raised
`KeyError` when the id is absent. -/
def getItem {V : Type} (m : ComponentMap V) (component : Component) : Option V :=
  (dictFind component.oid m.dict).map Prod.snd

/-- `__setitem__`: `self._dict[id(component)] = (component, value)`. -/
def setItem {V : Type} (m : ComponentMap V) (component : Component) (value : V) :
    ComponentMap V :=
  ⟨dictSet component.oid (component, value) m.dict⟩

/-- `__delitem__`: `del self._dict[id(component)]`; `none` models the raised
`KeyError` when the id is absent (in which case no state was changed). -/
def delItem {V : Type} (m : ComponentMap V) (component : Component) :
    Option (ComponentMap V) :=
  (dictDel component.oid m.dict).map ComponentMap.mk

/-- `__contains__`: `id(component) in self._dict`. -/
def hasKey {V : Type} (m : ComponentMap V) (component : Component) : Bool :=
  (dictFind component.oid m.dict).isSome

/-- `__len__`: `self._dict.__len__()`. -/
def size {V : Type} (m : ComponentMap V) : Nat :=
  m.dict.length

/-- `get`: `D[k] if k in D, else d` — never raises. -/
def get {V : Type} (m : ComponentMap V) (key : Component) (default : V) : V :=
  if m.hasKey key then (m.getItem key).getD default else default

end ComponentMap

/-! Basic dict lemmas. -/

theorem dictFind_dictSet_self {V : Type} (k : Nat) (cv : Component × V)
    (d : Dict V) : dictFind k (dictSet k cv d) = some cv := by
  induction d with
  | nil => simp [dictFind, dictSet]
  | cons hd tl ih =>
      obtain ⟨k', cv'⟩ := hd
      by_cases h : k' = k
      · simp [dictSet, dictFind, h]
      · simp [dictSet, dictFind, h, ih]

theorem dictFind_dictSet_ne {V : Type} (k k2 : Nat) (cv : Component × V)
    (d : Dict V) (hne : k2 ≠ k) :
    dictFind k2 (dictSet k cv d) = dictFind k2 d := by
  induction d with
  | nil => simp [dictFind, dictSet, Ne.symm hne]
  | cons hd tl ih =>
      obtain ⟨k', cv'⟩ := hd
      by_cases h : k' = k
      · subst h
        simp [dictSet, dictFind, Ne.symm hne]
      · by_cases h2 : k' = k2
        · simp [dictSet, dictFind, h, h2, hne]
        · simp [dictSet, dictFind, h, h2, ih]

theorem dictSet_length_absent {V : Type} (k : Nat) (cv : Component × V)
    (d : Dict V) (h : dictFind k d = none) :
    (dictSet k cv d).length = d.length + 1 := by
  induction d with
  | nil => simp [dictSet]
  | cons hd tl ih =>
      obtain ⟨k', cv'⟩ := hd
      by_cases hk : k' = k
      · simp [dictFind, hk] at h
      · simp [dictFind, hk] at h
        simp [dictSet, hk, ih h]

theorem dictSet_length_present {V : Type} (k : Nat) (cv : Component × V)
    (d : Dict V) (h : (dictFind k d).isSome) :
    (dictSet k cv d).length = d.length := by
  induction d with
  | nil => simp [dictFind] at h
  | cons hd tl ih =>
      obtain ⟨k', cv'⟩ := hd
      by_cases hk : k' = k
      · simp [dictSet, hk]
      · simp [dictFind, hk] at h
        simp [dictSet, hk, ih h]

theorem dictDel_length {V : Type} (k : Nat) (d : Dict V)
    (h : (dictFind k d).isSome) :
    ∃ r, dictDel k d = some r ∧ r.length + 1 = d.length := by
  induction d with
  | nil => simp [dictFind] at h
  | cons hd tl ih =>
      obtain ⟨k', cv'⟩ := hd
      by_cases hk : k' = k
      · exact ⟨tl, by simp [dictDel, hk]⟩
      · simp [dictFind, hk] at h
        obtain ⟨r, hr, hlen⟩ := ih h
        exact ⟨(k', cv') :: r, by simp [dictDel, hk, hr], by simp [hlen]⟩

theorem dictDel_absent {V : Type} (k : Nat) (d : Dict V)
    (h : dictFind k d = none) : dictDel k d = none := by
  induction d with
  | nil => simp [dictDel]
  | cons hd tl ih =>
      obtain ⟨k', cv'⟩ := hd
      by_cases hk : k' = k
      · simp [dictFind, hk] at h
      · simp [dictFind, hk] at h
        simp [dictDel, hk, ih h]

theorem isSome_false_iff {α : Type} (o : Option α) : o.isSome = false ↔ o = none := by
  cases o <;> simp

/-! ## Claim theorems for ComponentMap -/

/-- C3: `ComponentMap` keys entries by object identity, not structural value:
after `m[k] = v`, `m[k]` returns `v` and `k in m` is true; and any `k2` that is
not identically `k` (a different `oid`, even with identical bounds/value) is in
the updated map exactly when it already was. -/
theorem componentMap_identity_keyed {V : Type} (m : ComponentMap V)
    (k : Component) (v : V) (k2 : Component) (hne : k2.oid ≠ k.oid) :
    (m.setItem k v).getItem k = some v ∧
    (m.setItem k v).hasKey k = true ∧
    (m.setItem k v).hasKey k2 = m.hasKey k2 := by
  refine ⟨?_, ?_, ?_⟩
  · simp [ComponentMap.getItem, ComponentMap.setItem, dictFind_dictSet_self]
  · simp [ComponentMap.hasKey, ComponentMap.setItem, dictFind_dictSet_self]
  · simp [ComponentMap.hasKey, ComponentMap.setItem,
      dictFind_dictSet_ne k.oid k2.oid _ _ hne]

/-- Witness for C3 at concrete inputs: two distinct components with identical
bounds and value (`oid` 1 vs `oid` 2). -/
theorem componentMap_identity_keyed_witness :
    ((⟨[]⟩ : ComponentMap Nat).setItem ⟨1, some 0, none, some 5⟩ 7).getItem
        ⟨1, some 0, none, some 5⟩ = some 7 ∧
    ((⟨[]⟩ : ComponentMap Nat).setItem ⟨1, some 0, none, some 5⟩ 7).hasKey
        ⟨1, some 0, none, some 5⟩ = true ∧
    ((⟨[]⟩ : ComponentMap Nat).setItem ⟨1, some 0, none, some 5⟩ 7).hasKey
        ⟨2, some 0, none, some 5⟩ =
      (⟨[]⟩ : ComponentMap Nat).hasKey ⟨2, some 0, none, some 5⟩ :=
  componentMap_identity_keyed ⟨[]⟩ ⟨1, some 0, none, some 5⟩ 7
    ⟨2, some 0, none, some 5⟩ (by decide)

/-- C9: `m.get k d` never raises: it returns `m[k]` when `k` is present (by
identity) and the default when `k` is absent, while `__getitem__` on an absent
key raises `KeyError` (modelled by `none`) exactly when `k` is absent; both
operations are reads and return no modified map. -/
theorem componentMap_get_total {V : Type} (m : ComponentMap V)
    (k : Component) (d : V) :
    (∀ v, m.getItem k = some v → m.get k d = v) ∧
    (m.hasKey k = false → (m.get k d = d ∧ m.getItem k = none)) ∧
    (m.hasKey k = false ↔ m.getItem k = none) := by
  have hiff : m.hasKey k = false ↔ m.getItem k = none := by
    rw [ComponentMap.hasKey, ComponentMap.getItem, isSome_false_iff]
    cases dictFind k.oid m.dict <;> simp
  refine ⟨?_, fun h => ⟨?_, hiff.mp h⟩, hiff⟩
  · intro v hv
    have hk : m.hasKey k = true := by
      rw [ComponentMap.getItem] at hv
      rw [ComponentMap.hasKey]
      cases hfind : dictFind k.oid m.dict with
      | none => rw [hfind] at hv; simp at hv
      | some cv => simp
    simp [ComponentMap.get, hk, hv]
  · simp [ComponentMap.get, h]

/-- Witness for C9 at concrete inputs: a one-entry map queried at a present
and at an absent key. -/
theorem componentMap_get_total_witness :
    (∀ v, (ComponentMap.mk [(1, ⟨1, none, none, none⟩, 7)] :
        ComponentMap Nat).getItem ⟨1, none, none, none⟩ = some v →
      (ComponentMap.mk [(1, ⟨1, none, none, none⟩, 7)] :
        ComponentMap Nat).get ⟨1, none, none, none⟩ 9 = v) ∧
    ((ComponentMap.mk [(1, ⟨1, none, none, none⟩, 7)] :
        ComponentMap Nat).hasKey ⟨2, none, none, none⟩ = false →
      ((ComponentMap.mk [(1, ⟨1, none, none, none⟩, 7)] :
          ComponentMap Nat).get ⟨2, none, none, none⟩ 9 = 9 ∧
        (ComponentMap.mk [(1, ⟨1, none, none, none⟩, 7)] :
          ComponentMap Nat).getItem ⟨2, none, none, none⟩ = none)) ∧
    ((ComponentMap.mk [(1, ⟨1, none, none, none⟩, 7)] :
        ComponentMap Nat).hasKey ⟨2, none, none, none⟩ = false ↔
      (ComponentMap.mk [(1, ⟨1, none, none, none⟩, 7)] :
        ComponentMap Nat).getItem ⟨2, none, none, none⟩ = none) :=
  ⟨(componentMap_get_total (ComponentMap.mk [(1, ⟨1, none, none, none⟩, 7)])
      ⟨1, none, none, none⟩ 9).1,
   (componentMap_get_total (ComponentMap.mk [(1, ⟨1, none, none, none⟩, 7)])
      ⟨2, none, none, none⟩ 9).2.1,
   (componentMap_get_total (ComponentMap.mk [(1, ⟨1, none, none, none⟩, 7)])
      ⟨2, none, none, none⟩ 9).2.2⟩

/-- C10: `len` tracks distinct identities: `m[k] = v` grows the length by 1
exactly when `k` was absent and leaves it unchanged when present; `del m[k]`
shrinks the length by 1 when `k` is present and raises `KeyError` (modelled by
`none`, the map unchanged) when absent. -/
theorem componentMap_len_spec {V : Type} (m : ComponentMap V)
    (k : Component) (v : V) :
    (m.hasKey k = false → (m.setItem k v).size = m.size + 1) ∧
    (m.hasKey k = true → (m.setItem k v).size = m.size) ∧
    (m.hasKey k = true → ∃ m', m.delItem k = some m' ∧ m'.size + 1 = m.size) ∧
    (m.hasKey k = false → m.delItem k = none) := by
  refine ⟨?_, ?_, ?_, ?_⟩
  · intro h
    have hn : dictFind k.oid m.dict = none := by
      rw [ComponentMap.hasKey] at h
      exact (isSome_false_iff _).mp h
    simpa [ComponentMap.setItem, ComponentMap.size] using
      dictSet_length_absent k.oid (k, v) m.dict hn
  · intro h
    have hs : (dictFind k.oid m.dict).isSome := by
      simpa [ComponentMap.hasKey] using h
    simpa [ComponentMap.setItem, ComponentMap.size] using
      dictSet_length_present k.oid (k, v) m.dict hs
  · intro h
    have hs : (dictFind k.oid m.dict).isSome := by
      simpa [ComponentMap.hasKey] using h
    obtain ⟨r, hr, hlen⟩ := dictDel_length k.oid m.dict hs
    exact ⟨⟨r⟩, by simp [ComponentMap.delItem, hr], by
      simpa [ComponentMap.size] using hlen⟩
  · intro h
    have hn : dictFind k.oid m.dict = none := by
      rw [ComponentMap.hasKey] at h
      exact (isSome_false_iff _).mp h
    simp [ComponentMap.delItem, dictDel_absent k.oid m.dict hn]

/-- Witness for C10 at concrete inputs: a one-entry map, with `k` the present
key and (via a second application) an absent key. -/
theorem componentMap_len_spec_witness :
    ((ComponentMap.mk [(1, ⟨1, none, none, none⟩, 7)] :
        ComponentMap Nat).hasKey ⟨2, none, none, none⟩ = false →
      ((ComponentMap.mk [(1, ⟨1, none, none, none⟩, 7)] :
          ComponentMap Nat).setItem ⟨2, none, none, none⟩ 8).size =
        (ComponentMap.mk [(1, ⟨1, none, none, none⟩, 7)] :
          ComponentMap Nat).size + 1) ∧
    ((ComponentMap.mk [(1, ⟨1, none, none, none⟩, 7)] :
        ComponentMap Nat).hasKey ⟨1, none, none, none⟩ = true →
      ∃ m', (ComponentMap.mk [(1, ⟨1, none, none, none⟩, 7)] :
          ComponentMap Nat).delItem ⟨1, none, none, none⟩ = some m' ∧
        m'.size + 1 = (ComponentMap.mk [(1, ⟨1, none, none, none⟩, 7)] :
          ComponentMap Nat).size) ∧
    ((ComponentMap.mk [(1, ⟨1, none, none, none⟩, 7)] :
        ComponentMap Nat).hasKey ⟨2, none, none, none⟩ = false →
      (ComponentMap.mk [(1, ⟨1, none, none, none⟩, 7)] :
        ComponentMap Nat).delItem ⟨2, none, none, none⟩ = none) :=
  ⟨(componentMap_len_spec (ComponentMap.mk [(1, ⟨1, none, none, none⟩, 7)])
      ⟨2, none, none, none⟩ 8).1,
   (componentMap_len_spec (ComponentMap.mk [(1, ⟨1, none, none, none⟩, 7)])
      ⟨1, none, none, none⟩ 8).2.2.1,
   (componentMap_len_spec (ComponentMap.mk [(1, ⟨1, none, none, none⟩, 7)])
      ⟨2, none, none, none⟩ 8).2.2.2⟩

/-! ## Benders decomposition engine

The engine module `pyomo/contrib/benders/benders_cuts.py` is not part of the
source slice (only its test `par_grothkey.py` is), so the engine below is
modelled from the design specification (its sections 3, 4, 6 and 7). -/

/-- A master-model variable reference, identified by a variable id. -/
abbrev VarId := Nat

/-- Current master primal values: the value of each master variable. -/
abbrev Vals := VarId → ℚ

/-- Modelled from the spec: the `type` tag of a `Cut` (optimality or
feasibility). -/
inductive CutType
  | optimality
  | feasibility
deriving DecidableEq

/-- Modelled from the spec: the `sense` of a `Cut` (`≥` or `≤`). -/
inductive CutSense
  | ge
  | le
deriving DecidableEq

/-- Modelled from the spec: a `Cut` record
`{type, coefficients: MasterVariable → ℚ, rhs, sense}`. -/
structure Cut where
  ctype : CutType
  coeffs : List (VarId × ℚ)
  rhs : ℚ
  sense : CutSense
deriving DecidableEq

/-- The value of the cut's linear form at the current master values. -/
def Cut.lhsValue (c : Cut) (vals : Vals) : ℚ :=
  (c.coeffs.map (fun p => p.2 * vals p.1)).sum

/-- The cut's slack (difference between its two sides) at the current master
values; nonnegative exactly when the point satisfies the cut. -/
def Cut.slack (c : Cut) (vals : Vals) : ℚ :=
  match c.sense with
  | .ge => c.lhsValue vals - c.rhs
  | .le => c.rhs - c.lhsValue vals

/-- Modelled from the spec: cut acceptance test — the candidate cut is already
satisfied by the current master point to within the tolerance `tol` (its slack
is within `tol` of zero or better). -/
def Cut.satisfiedWithin (c : Cut) (tol : ℚ) (vals : Vals) : Bool :=
  decide (-tol ≤ c.slack vals)

/-- Modelled from the spec: the tagged `SolveOutcome` of the subproblem solve
adapter — `Optimal{objective_value, duals}`, `Infeasible{certificate}` (with
`none` when the solver provides no usable certificate) or
`SolverError{reason}`. -/
inductive SolveOutcome
  | optimal (objectiveValue : ℚ) (marginals : List (VarId × ℚ))
  | infeasible (certificate : Option (List (VarId × ℚ)))
  | solverError (reason : Nat)

/-- Modelled from the spec: a per-subproblem error surfaced to the driver —
an infeasible subproblem with no usable certificate, or a solver failure. -/
inductive SubError
  | infeasibleCertificateError
  | solverError (reason : Nat)
deriving DecidableEq

/-- Modelled from the spec: a registered subproblem — builder and solve
adapter composed into an opaque map from the master's current values to a
`SolveOutcome`, together with the master cost-surrogate variable it feeds and
the complicating variables it was registered with. -/
structure SubproblemSpec where
  solveAdapter : Vals → SolveOutcome
  costSurrogate : VarId
  complicatingVars : List VarId

/-- Modelled from the spec: the optimality cut
`eta − Σ λ_v · v ≥ f* − Σ λ_v · x*_v` built from the subproblem's optimal
value `f*` and the marginals `λ_v` at the current master point `x*`. -/
def buildOptimalityCut (eta : VarId) (fstar : ℚ)
    (marginals : List (VarId × ℚ)) (vals : Vals) : Cut :=
  { ctype := .optimality
    coeffs := (eta, 1) :: marginals.map (fun p => (p.1, -p.2))
    rhs := fstar - (marginals.map (fun p => p.2 * vals p.1)).sum
    sense := .ge }

/-- Modelled from the spec: the strict-separation margin `ε_violation` of a
feasibility cut (the spec leaves its magnitude unspecified). -/
def epsViolation : ℚ := 1

/-- Modelled from the spec: the feasibility cut
`Σ μ_v · (v − x*_v) ≥ ε_violation` built from the infeasibility certificate
`μ` at the current master point `x*`. -/
def buildFeasibilityCut (certificate : List (VarId × ℚ)) (vals : Vals) : Cut :=
  { ctype := .feasibility
    coeffs := certificate
    rhs := (certificate.map (fun p => p.2 * vals p.1)).sum + epsViolation
    sense := .ge }

/-- Modelled from the spec: build and solve one subproblem at the current
master values and construct its candidate cut, or surface the per-subproblem
error. -/
def candidateCut (sp : SubproblemSpec) (vals : Vals) : Except SubError Cut :=
  match sp.solveAdapter vals with
  | .optimal f marg => .ok (buildOptimalityCut sp.costSurrogate f marg vals)
  | .infeasible (some cert) => .ok (buildFeasibilityCut cert vals)
  | .infeasible none => .error .infeasibleCertificateError
  | .solverError r => .error (.solverError r)

/-- Modelled from the spec: the master model collaborator — declared
variables, current primal values and the constraint (cut) pool. -/
structure MasterModel where
  declaredVars : List VarId
  vals : Vals
  cuts : List Cut

/-- Modelled from the spec: the engine state — whether `set_input` was called
(with the declared complicating variables and tolerance), the registration
table, and the master model. -/
structure BendersState where
  inputSet : Bool
  masterVars : List VarId
  tol : ℚ
  subproblems : List SubproblemSpec
  master : MasterModel

/-- Modelled from the spec: the `ConfigurationError` raised on invalid
registration input or an invalid engine state. -/
inductive ConfigErr
  | configurationError
deriving DecidableEq

/-- Modelled from the spec: `set_input(master_vars, tol)`. -/
def setInput (s : BendersState) (masterVars : List VarId) (tol : ℚ) :
    BendersState :=
  { s with inputSet := true, masterVars := masterVars, tol := tol }

/-- Modelled from the spec: `add_subproblem` registration — fails with
`ConfigurationError` when `set_input` has not been called, when the cost
surrogate is not a variable declared on the master model, or when the
complicating-variable set is empty; otherwise appends the spec to the
registration table. -/
def addSubproblem (s : BendersState) (sp : SubproblemSpec) :
    Except ConfigErr BendersState :=
  if s.inputSet = false then .error .configurationError
  else if s.master.declaredVars.contains sp.costSurrogate = false then
    .error .configurationError
  else if sp.complicatingVars.isEmpty then .error .configurationError
  else .ok { s with subproblems := s.subproblems ++ [sp] }

/-- Modelled from the spec: process one subproblem of a round — derive its
candidate cut and apply the acceptance test; `ok none` means the candidate
was already satisfied within tolerance and is not added. -/
def processOne (tol : ℚ) (vals : Vals) (sp : SubproblemSpec) :
    Except SubError (Option Cut) :=
  match candidateCut sp vals with
  | .error e => .error e
  | .ok c => if c.satisfiedWithin tol vals then .ok none else .ok (some c)

/-- The cut (if any) a subproblem contributes to the round. -/
def cutOfSub (tol : ℚ) (vals : Vals) (sp : SubproblemSpec) : Option Cut :=
  match processOne tol vals sp with
  | .ok (some c) => some c
  | _ => none

/-- The error (if any) a subproblem surfaces during the round. -/
def errOfSub (tol : ℚ) (vals : Vals) (sp : SubproblemSpec) : Option SubError :=
  match processOne tol vals sp with
  | .error e => some e
  | _ => none

/-- Modelled from the spec: the cuts a round adds, processing the registered
subproblems in registration order against the fixed snapshot `vals`. -/
def roundCuts (tol : ℚ) (vals : Vals) (subs : List SubproblemSpec) : List Cut :=
  subs.filterMap (cutOfSub tol vals)

/-- Modelled from the spec: the per-subproblem errors a round surfaces, in
registration order. -/
def roundErrors (tol : ℚ) (vals : Vals) (subs : List SubproblemSpec) :
    List SubError :=
  subs.filterMap (errOfSub tol vals)

/-- The result of one `generate_cut` round: the cuts added this round, the
per-subproblem errors surfaced to the driver, and the next engine state. -/
structure RoundResult where
  addedCuts : List Cut
  errors : List SubError
  next : BendersState

/-- Modelled from the spec: `generate_cut()` — valid only once `set_input`
was called and at least one subproblem is registered (`ConfigurationError`
otherwise); runs every registered subproblem against the master's current
values, appends the accepted cuts to the master model and returns them. -/
def generateCut (s : BendersState) : Except ConfigErr RoundResult :=
  if s.inputSet = false ∨ s.subproblems.isEmpty = true then
    .error .configurationError
  else
    let cs := roundCuts s.tol s.master.vals s.subproblems
    .ok { addedCuts := cs
          errors := roundErrors s.tol s.master.vals s.subproblems
          next := { s with
                    master := { s.master with cuts := s.master.cuts ++ cs } } }

/-- Modelled from the spec: the external master re-solve between rounds —
the external solver updates the master's variable values and touches nothing
else. -/
def masterResolve (s : BendersState) (newVals : Vals) : BendersState :=
  { s with master := { s.master with vals := newVals } }

/-- One step of the external driver loop: either a master re-solve or a
`generate_cut` round (an erroring round leaves the state unchanged). -/
inductive DriverOp
  | resolveMaster (newVals : Vals)
  | genCut

/-- Apply one driver step to the engine state. -/
def applyOp (s : BendersState) : DriverOp → BendersState
  | .resolveMaster v => masterResolve s v
  | .genCut =>
    match generateCut s with
    | .error _ => s
    | .ok r => r.next

/-- Run a sequence of driver steps. -/
def runOps (s : BendersState) : List DriverOp → BendersState
  | [] => s
  | op :: ops => runOps (applyOp s op) ops

/-! ## Helper lemmas for the engine -/

theorem cutOfSub_eq_none_iff (tol : ℚ) (vals : Vals) (sp : SubproblemSpec) :
    cutOfSub tol vals sp = none ↔
      ∀ c, candidateCut sp vals = .ok c →
        c.satisfiedWithin tol vals = true := by
  unfold cutOfSub processOne
  cases h : candidateCut sp vals with
  | error e => simp
  | ok c =>
      by_cases hs : c.satisfiedWithin tol vals = true
      · simp [hs]
      · simp [hs]

theorem mem_roundCuts_not_satisfied (tol : ℚ) (vals : Vals)
    (subs : List SubproblemSpec) (c : Cut) (h : c ∈ roundCuts tol vals subs) :
    c.satisfiedWithin tol vals = false := by
  rw [roundCuts, List.mem_filterMap] at h
  obtain ⟨sp, _, hsp⟩ := h
  rw [cutOfSub, processOne] at hsp
  cases hc : candidateCut sp vals with
  | error e => rw [hc] at hsp; simp at hsp
  | ok c' =>
      rw [hc] at hsp
      by_cases hs : c'.satisfiedWithin tol vals = true
      · simp [hs] at hsp
      · simp [hs] at hsp
        subst hsp
        simpa using hs

theorem generateCut_ok (s : BendersState) (hin : s.inputSet = true)
    (hsub : s.subproblems.isEmpty = false) :
    generateCut s = .ok
      { addedCuts := roundCuts s.tol s.master.vals s.subproblems
        errors := roundErrors s.tol s.master.vals s.subproblems
        next := { s with
                  master := { s.master with
                    cuts := s.master.cuts ++
                      roundCuts s.tol s.master.vals s.subproblems } } } := by
  rw [generateCut]
  simp [hin, hsub]

theorem applyOp_cuts (s : BendersState) (op : DriverOp) :
    ∃ t, (applyOp s op).master.cuts = s.master.cuts ++ t := by
  cases op with
  | resolveMaster v => exact ⟨[], by simp [applyOp, masterResolve]⟩
  | genCut =>
      rw [applyOp]
      by_cases h : s.inputSet = false ∨ s.subproblems.isEmpty = true
      · refine ⟨[], ?_⟩
        rw [generateCut, if_pos h]
        simp
      · push_neg at h
        have hin : s.inputSet = true := by simpa using h.1
        have hsub : s.subproblems.isEmpty = false := by simpa using h.2
        rw [generateCut_ok s hin hsub]
        exact ⟨_, rfl⟩

/-! ## Concrete instances used as witnesses -/

/-- A concrete master-values snapshot. -/
def valsC : Vals := fun v => if v = 1 then 10 else 2

/-- The concrete tolerance used in concrete instances. -/
def tolC : ℚ := 1 / 1000000

/-- A subproblem whose candidate optimality cut is already satisfied at
`valsC` (optimal value 5, no marginals; the cut `eta ≥ 5` holds at
`eta = 10`). -/
def spSat : SubproblemSpec :=
  { solveAdapter := fun _ => .optimal 5 []
    costSurrogate := 1
    complicatingVars := [0] }

/-- A subproblem whose candidate cut `eta ≥ 100` is violated at `valsC`
(`eta = 10`), so it is added. -/
def spAdd : SubproblemSpec :=
  { solveAdapter := fun _ => .optimal 100 []
    costSurrogate := 1
    complicatingVars := [0] }

/-- A subproblem whose solve fails with a solver error. -/
def spFail : SubproblemSpec :=
  { solveAdapter := fun _ => .solverError 3
    costSurrogate := 1
    complicatingVars := [0] }

/-- The candidate cut of `spSat` at `valsC`. -/
def cutSat : Cut := buildOptimalityCut 1 5 [] valsC

/-- A concrete Ready engine state with one registered (satisfied)
subproblem. -/
def stateC : BendersState :=
  { inputSet := true
    masterVars := [0]
    tol := tolC
    subproblems := [spSat]
    master := { declaredVars := [0, 1], vals := valsC, cuts := [] } }

/-- A concrete engine state on which `set_input` was never called. -/
def stateUn : BendersState :=
  { inputSet := false
    masterVars := []
    tol := tolC
    subproblems := []
    master := { declaredVars := [0, 1], vals := valsC, cuts := [] } }

/-! ## Claim theorems for the engine -/

/-- C2: in the Ready/Generating state (input set, at least one registered
subproblem), `generate_cut()` returns the empty sequence of added cuts if and
only if every registered subproblem's candidate cut is already satisfied by
the master's current values to within the configured tolerance; this empty
return is the convergence signal the external driver stops on. -/
theorem generateCut_empty_iff_converged (s : BendersState)
    (hin : s.inputSet = true) (hsub : s.subproblems.isEmpty = false) :
    ∃ r, generateCut s = .ok r ∧
      (r.addedCuts = [] ↔ ∀ sp ∈ s.subproblems, ∀ c,
        candidateCut sp s.master.vals = .ok c →
          c.satisfiedWithin s.tol s.master.vals = true) := by
  refine ⟨_, generateCut_ok s hin hsub, ?_⟩
  show roundCuts s.tol s.master.vals s.subproblems = [] ↔ _
  rw [roundCuts, List.filterMap_eq_nil_iff]
  constructor
  · intro h sp hsp
    exact (cutOfSub_eq_none_iff s.tol s.master.vals sp).mp (h sp hsp)
  · intro h sp hsp
    exact (cutOfSub_eq_none_iff s.tol s.master.vals sp).mpr (h sp hsp)

/-- C4: `add_subproblem` fails with `ConfigurationError` exactly when the
cost surrogate is not declared on the master model, the complicating-variable
set is empty, or `set_input` has not been called; on failure no partial
registration state is retained, and on success the only change is the new
entry at the end of the registration table. -/
theorem addSubproblem_configurationError_iff (s : BendersState)
    (sp : SubproblemSpec) :
    (addSubproblem s sp = .error .configurationError ↔
      (s.inputSet = false ∨
        s.master.declaredVars.contains sp.costSurrogate = false ∨
        sp.complicatingVars = [])) ∧
    (∀ s', addSubproblem s sp = .ok s' →
      s' = { s with subproblems := s.subproblems ++ [sp] }) := by
  rw [addSubproblem]
  by_cases h1 : s.inputSet = false
  · simp [h1]
  · have hin : s.inputSet = true := by simpa using h1
    by_cases h2 : sp.costSurrogate ∈ s.master.declaredVars
    · by_cases h3 : sp.complicatingVars = []
      · simp [hin, h2, h3]
      · constructor
        · simp [hin, h2, h3]
        · intro s' hs'
          simp [hin, h2, h3] at hs'
          simp [hin]
          first
          | exact hs'
          | exact hs'.symm
    · simp [hin, h2]

/-- Witness for C2 at the concrete Ready state `stateC`. -/
theorem generateCut_empty_iff_converged_witness :
    ∃ r, generateCut stateC = .ok r ∧
      (r.addedCuts = [] ↔ ∀ sp ∈ stateC.subproblems, ∀ c,
        candidateCut sp stateC.master.vals = .ok c →
          c.satisfiedWithin stateC.tol stateC.master.vals = true) :=
  generateCut_empty_iff_converged stateC rfl rfl

/-- Witness for C4 at a concrete state on which `set_input` was never
called. -/
theorem addSubproblem_configurationError_iff_witness :
    addSubproblem stateUn spSat = .error .configurationError :=
  (addSubproblem_configurationError_iff stateUn spSat).1.mpr (Or.inl rfl)

/-- C5: the cut pool is monotone: across every sequence of driver steps
(master re-solves and `generate_cut` rounds) the master's constraint list only
grows at its end, so the constraint count is non-decreasing and every
previously added cut remains present, unmodified and in its position. -/
theorem cutPool_monotone (s : BendersState) (ops : List DriverOp) :
    ∃ tail, (runOps s ops).master.cuts = s.master.cuts ++ tail ∧
      s.master.cuts.length ≤ (runOps s ops).master.cuts.length := by
  induction ops generalizing s with
  | nil => exact ⟨[], by simp [runOps]⟩
  | cons op ops ih =>
      obtain ⟨t2, h2, _⟩ := ih (applyOp s op)
      obtain ⟨t1, h1⟩ := applyOp_cuts s op
      refine ⟨t1 ++ t2, ?_, ?_⟩
      · rw [runOps, h2, h1, List.append_assoc]
      · rw [runOps, h2, h1]
        simp

/-- C6: `generate_cut` is deterministic in the master's current values and
idempotent under unchanged values: when a subproblem's candidate cut is
already satisfied within tolerance, the round rejects it (it is not among the
added cuts), leaves the master values untouched, and an immediate second round
re-derives the same cut and rejects it again, adding no duplicate and no
spurious constraint (the second round adds exactly the same cuts as the
first). -/
theorem generateCut_rejection_idempotent (s : BendersState)
    (hin : s.inputSet = true) (hsub : s.subproblems.isEmpty = false)
    (sp : SubproblemSpec) (_hsp : sp ∈ s.subproblems) (c : Cut)
    (_hc : candidateCut sp s.master.vals = .ok c)
    (hsat : c.satisfiedWithin s.tol s.master.vals = true) :
    ∃ r, generateCut s = .ok r ∧ c ∉ r.addedCuts ∧
      r.next.master.vals = s.master.vals ∧
      ∃ r2, generateCut r.next = .ok r2 ∧ r2.addedCuts = r.addedCuts ∧
        c ∉ r2.addedCuts := by
  refine ⟨_, generateCut_ok s hin hsub, ?_, rfl, ?_⟩
  · intro hmem
    have := mem_roundCuts_not_satisfied s.tol s.master.vals s.subproblems c hmem
    rw [hsat] at this
    exact Bool.noConfusion this
  · refine ⟨_, generateCut_ok _ hin hsub, rfl, ?_⟩
    intro hmem
    have := mem_roundCuts_not_satisfied s.tol s.master.vals s.subproblems c hmem
    rw [hsat] at this
    exact Bool.noConfusion this

/-- Witness for C6 at the concrete Ready state `stateC`, whose single
subproblem's candidate cut `cutSat` is satisfied at the current values. -/
theorem generateCut_rejection_idempotent_witness :
    ∃ r, generateCut stateC = .ok r ∧ cutSat ∉ r.addedCuts ∧
      r.next.master.vals = stateC.master.vals ∧
      ∃ r2, generateCut r.next = .ok r2 ∧ r2.addedCuts = r.addedCuts ∧
        cutSat ∉ r2.addedCuts :=
  generateCut_rejection_idempotent stateC rfl rfl spSat
    (List.mem_singleton.mpr rfl) cutSat rfl
    (by norm_num [cutSat, stateC, tolC, valsC, Cut.satisfiedWithin, Cut.slack,
      Cut.lhsValue, buildOptimalityCut])

/-- C7: a single round is order-independent: processing the registered
subproblems of one round in any permutation of registration order produces
the same cuts up to permutation (the same set of cuts), depending only on the
master's fixed snapshot of values at round start. -/
theorem roundCuts_order_independent (tol : ℚ) (vals : Vals)
    (subs1 subs2 : List SubproblemSpec) (h : subs1.Perm subs2) :
    (roundCuts tol vals subs1).Perm (roundCuts tol vals subs2) :=
  h.filterMap (cutOfSub tol vals)

/-- Witness for C7: swapping two concrete registered subproblems permutes the
round's cuts. -/
theorem roundCuts_order_independent_witness :
    (roundCuts tolC valsC [spSat, spAdd]).Perm
      (roundCuts tolC valsC [spAdd, spSat]) :=
  roundCuts_order_independent tolC valsC [spSat, spAdd] [spAdd, spSat]
    (List.Perm.swap spAdd spSat [])

/-- C8: per-subproblem error isolation: a subproblem whose solve fails with
`SolverError` contributes no cut that round, the error is surfaced to the
driver in the round's error list (no internal retry), and the cuts of the
other subproblems of the round are exactly those of the round without the
failing subproblem. -/
theorem solverError_isolated (tol : ℚ) (vals : Vals)
    (pre post : List SubproblemSpec) (sp : SubproblemSpec) (r : Nat)
    (herr : sp.solveAdapter vals = .solverError r) :
    cutOfSub tol vals sp = none ∧
    errOfSub tol vals sp = some (.solverError r) ∧
    roundCuts tol vals (pre ++ sp :: post) = roundCuts tol vals (pre ++ post) ∧
    roundErrors tol vals (pre ++ sp :: post) =
      roundErrors tol vals pre ++
        .solverError r :: roundErrors tol vals post := by
  have hcut : cutOfSub tol vals sp = none := by
    simp [cutOfSub, processOne, candidateCut, herr]
  have herro : errOfSub tol vals sp = some (.solverError r) := by
    simp [errOfSub, processOne, candidateCut, herr]
  refine ⟨hcut, herro, ?_, ?_⟩
  · simp [roundCuts, List.filterMap_append, hcut]
  · simp [roundErrors, List.filterMap_append, herro]

/-- Witness for C8: a concrete round with a failing subproblem between two
healthy ones. -/
theorem solverError_isolated_witness :
    cutOfSub tolC valsC spFail = none ∧
    errOfSub tolC valsC spFail = some (.solverError 3) ∧
    roundCuts tolC valsC ([spAdd] ++ spFail :: [spSat]) =
      roundCuts tolC valsC ([spAdd] ++ [spSat]) ∧
    roundErrors tolC valsC ([spAdd] ++ spFail :: [spSat]) =
      roundErrors tolC valsC [spAdd] ++
        .solverError 3 :: roundErrors tolC valsC [spSat] :=
  solverError_isolated tolC valsC [spAdd] [spSat] spFail 3 rfl

end PyomoSpec
